import Mathlib

/-!
Verification of the nautilus-tee core (attestation + ZK-proof services)
against its natural-language specification.

The Rust sources are shallowly embedded:
* strings and byte buffers become `List Nat` (one `Nat` per byte);
* SHA-256 (the `sha2` crate) is implemented executably, bit-faithful to FIPS 180-4;
* standard base64 with padding (the `base64` crate's `STANDARD` engine),
  serde_json's compact serialization of the one document struct the code
  serializes, and lowercase hex encoding (the `hex` crate) are implemented
  executably;
* `AttestationService::generate` becomes a pure function of the service
  configuration (`image_id`), the clock reading, and the request inputs;
* `ZKProofService::generate` and its claim-specific helpers return
  `Except Bytes _` mirroring Rust's `Result<_, String>`.
-/

set_option maxRecDepth 100000

namespace Lumina

/-- A byte string: each element is one byte (values < 256 for real data). -/
abbrev Bytes := List Nat

/-- Bytes of an ASCII string literal (codepoint = byte for ASCII). -/
def asciiBytes (s : String) : Bytes := s.data.map Char.toNat

namespace SHA256

/-- Truncate to a 32-bit word. -/
def w32 (x : Nat) : Nat := x % 4294967296

/-- 32-bit right rotation (for `x < 2^32`). -/
def rotr (n x : Nat) : Nat := w32 (x >>> n ||| x <<< (32 - n))

/-- 32-bit bitwise complement (for `x < 2^32`). -/
def bnot (x : Nat) : Nat := 4294967295 - x

def bsig0 (x : Nat) : Nat := rotr 2 x ^^^ rotr 13 x ^^^ rotr 22 x
def bsig1 (x : Nat) : Nat := rotr 6 x ^^^ rotr 11 x ^^^ rotr 25 x
def ssig0 (x : Nat) : Nat := rotr 7 x ^^^ rotr 18 x ^^^ (x >>> 3)
def ssig1 (x : Nat) : Nat := rotr 17 x ^^^ rotr 19 x ^^^ (x >>> 10)

def ch (e f g : Nat) : Nat := (e &&& f) ^^^ (bnot e &&& g)
def maj (a b c : Nat) : Nat := (a &&& b) ^^^ (a &&& c) ^^^ (b &&& c)

/-- The 64 SHA-256 round constants. -/
def K : List Nat :=
  [1116352408, 1899447441, 3049323471, 3921009573, 961987163,
   1508970993, 2453635748, 2870763221, 3624381080, 310598401,
   607225278, 1426881987, 1925078388, 2162078206, 2614888103,
   3248222580, 3835390401, 4022224774, 264347078, 604807628,
   770255983, 1249150122, 1555081692, 1996064986, 2554220882,
   2821834349, 2952996808, 3210313671, 3336571891, 3584528711,
   113926993, 338241895, 666307205, 773529912, 1294757372,
   1396182291, 1695183700, 1986661051, 2177026350, 2456956037,
   2730485921, 2820302411, 3259730800, 3345764771, 3516065817,
   3600352804, 4094571909, 275423344, 430227734, 506948616,
   659060556, 883997877, 958139571, 1322822218, 1537002063,
   1747873779, 1955562222, 2024104815, 2227730452, 2361852424,
   2428436474, 2756734187, 3204031479, 3329325298]

/-- Working state: the eight 32-bit hash variables. -/
structure Hs where
  a : Nat
  b : Nat
  c : Nat
  d : Nat
  e : Nat
  f : Nat
  g : Nat
  h : Nat
deriving DecidableEq

/-- SHA-256 initial hash value. -/
def H0 : Hs :=
  ⟨1779033703, 3144134277, 1013904242, 2773480762,
   1359893119, 2600822924, 528734635, 1541459225⟩

/-- One compression round; `wk` is the (schedule word, round constant) pair. -/
def round (s : Hs) (wk : Nat × Nat) : Hs :=
  let t1 := w32 (s.h + bsig1 s.e + ch s.e s.f s.g + wk.2 + wk.1)
  let t2 := w32 (bsig0 s.a + maj s.a s.b s.c)
  ⟨w32 (t1 + t2), s.a, s.b, s.c, w32 (s.d + t1), s.e, s.f, s.g⟩

/-- Extend the message schedule by one word. -/
def extend (ws : List Nat) : List Nat :=
  ws ++ [w32 (ssig1 (ws.getD (ws.length - 2) 0) + ws.getD (ws.length - 7) 0 +
              ssig0 (ws.getD (ws.length - 15) 0) + ws.getD (ws.length - 16) 0)]

/-- Expand a 16-word block to the 64-word message schedule. -/
def schedule (block : List Nat) : List Nat :=
  (List.range 48).foldl (fun acc _ => extend acc) block

/-- Compress one 16-word block into the hash state. -/
def compress (h0 : Hs) (block : List Nat) : Hs :=
  let s := ((schedule block).zip K).foldl round h0
  ⟨w32 (h0.a + s.a), w32 (h0.b + s.b), w32 (h0.c + s.c), w32 (h0.d + s.d),
   w32 (h0.e + s.e), w32 (h0.f + s.f), w32 (h0.g + s.g), w32 (h0.h + s.h)⟩

/-- Big-endian 8-byte encoding of a 64-bit length. -/
def be64 (n : Nat) : Bytes :=
  [n / 2 ^ 56 % 256, n / 2 ^ 48 % 256, n / 2 ^ 40 % 256, n / 2 ^ 32 % 256,
   n / 2 ^ 24 % 256, n / 2 ^ 16 % 256, n / 2 ^ 8 % 256, n % 256]

/-- FIPS 180-4 padding: append 0x80, zeros to 56 mod 64, then the bit length. -/
def pad (msg : Bytes) : Bytes :=
  msg ++ 0x80 :: List.replicate ((64 + 56 - (msg.length + 1) % 64) % 64) 0 ++
    be64 (msg.length * 8)

/-- Group bytes into big-endian 32-bit words. -/
def toWords : Bytes → List Nat
  | a :: b :: c :: d :: rest =>
      (a * 16777216 + b * 65536 + c * 256 + d) :: toWords rest
  | _ => []

/-- Group words into 16-word blocks. -/
def blocks : List Nat → List (List Nat)
  | w0 :: w1 :: w2 :: w3 :: w4 :: w5 :: w6 :: w7 ::
    w8 :: w9 :: w10 :: w11 :: w12 :: w13 :: w14 :: w15 :: rest =>
      [w0, w1, w2, w3, w4, w5, w6, w7, w8, w9, w10, w11, w12, w13, w14, w15] ::
        blocks rest
  | _ => []

/-- Big-endian 4-byte encoding of a 32-bit word. -/
def wordBE (n : Nat) : Bytes := [n / 16777216 % 256, n / 65536 % 256, n / 256 % 256, n % 256]

end SHA256

/-- SHA-256 digest (32 bytes) of a byte string, as in the `sha2` crate. -/
def sha256 (msg : Bytes) : Bytes :=
  let hs := (SHA256.blocks (SHA256.toWords (SHA256.pad msg))).foldl SHA256.compress SHA256.H0
  (([hs.a, hs.b, hs.c, hs.d, hs.e, hs.f, hs.g, hs.h]).map SHA256.wordBE).flatten

/-- Lowercase hex digit (value < 16) as an ASCII byte. -/
def hexDigit (n : Nat) : Nat := if n < 10 then 48 + n else 87 + n

/-- Lowercase hex encoding of bytes, as in the `hex` crate's `encode`. -/
def hexEncode (bs : Bytes) : Bytes :=
  (bs.map (fun b => [hexDigit (b / 16), hexDigit (b % 16)])).flatten

example : hexEncode (sha256 (asciiBytes "abc")) =
    asciiBytes "ba7816bf8f01cfea414140de5dae2223b00361a396177a9cb410ff61f20015ad" := by
  decide

/-! ## Base64 (the `base64` crate's `STANDARD` engine: padded, canonical) -/

/-- Standard base64 alphabet: sextet value (< 64) to ASCII byte. -/
def b64char (n : Nat) : Nat :=
  if n < 26 then 65 + n
  else if n < 52 then 71 + n
  else if n < 62 then n - 4
  else if n = 62 then 43 else 47

/-- Inverse alphabet lookup: ASCII byte to sextet value. -/
def b64val (c : Nat) : Option Nat :=
  if 65 ≤ c ∧ c ≤ 90 then some (c - 65)
  else if 97 ≤ c ∧ c ≤ 122 then some (c - 71)
  else if 48 ≤ c ∧ c ≤ 57 then some (c + 4)
  else if c = 43 then some 62
  else if c = 47 then some 63
  else none

/-- Base64-encode bytes, three at a time, padding the final group with `=`. -/
def b64encode : Bytes → Bytes
  | [] => []
  | [a] => [b64char (a / 4), b64char (a % 4 * 16), 61, 61]
  | [a, b] => [b64char (a / 4), b64char (a % 4 * 16 + b / 16), b64char (b % 16 * 4), 61]
  | a :: b :: c :: rest =>
      b64char (a / 4) :: b64char (a % 4 * 16 + b / 16) ::
        b64char (b % 16 * 4 + c / 64) :: b64char (c % 64) :: b64encode rest

/-- Base64-decode, four characters at a time; rejects bad lengths, bad
characters, interior padding, and (as the `STANDARD` engine does) nonzero
trailing bits in the last symbol. -/
def b64decode : Bytes → Option Bytes
  | [] => some []
  | c1 :: c2 :: c3 :: c4 :: rest => do
      let v1 ← b64val c1
      let v2 ← b64val c2
      if c3 = 61 then
        if c4 = 61 ∧ rest = [] then
          if v2 % 16 = 0 then some [v1 * 4 + v2 / 16] else none
        else none
      else if c4 = 61 then
        if rest = [] then do
          let v3 ← b64val c3
          if v3 % 4 = 0 then some [v1 * 4 + v2 / 16, v2 % 16 * 16 + v3 / 4] else none
        else none
      else do
        let v3 ← b64val c3
        let v4 ← b64val c4
        let tail ← b64decode rest
        some ((v1 * 4 + v2 / 16) :: (v2 % 16 * 16 + v3 / 4) :: (v3 % 4 * 64 + v4) :: tail)
  | _ => none

theorem b64val_b64char : ∀ n, n < 64 → b64val (b64char n) = some n := by
  decide

theorem b64char_ne_pad : ∀ n, n < 64 → b64char n ≠ 61 := by
  decide

/-- Decoding inverts encoding on genuine byte strings. -/
theorem b64decode_b64encode (bs : Bytes) (hb : ∀ b ∈ bs, b < 256) :
    b64decode (b64encode bs) = some bs := by
  induction bs using b64encode.induct with
  | case1 => simp [b64encode, b64decode]
  | case2 a =>
      have ha : a < 256 := hb a (by simp)
      have h1 : a / 4 < 64 := by omega
      have h2 : a % 4 * 16 < 64 := by omega
      have e2 : a % 4 * 16 % 16 = 0 := by omega
      simp [b64encode, b64decode, b64val_b64char _ h1, b64val_b64char _ h2, e2]
      omega
  | case3 a b =>
      have ha : a < 256 := hb a (by simp)
      have hbb : b < 256 := hb b (by simp)
      have h1 : a / 4 < 64 := by omega
      have h2 : a % 4 * 16 + b / 16 < 64 := by omega
      have h3 : b % 16 * 4 < 64 := by omega
      have hc3 : ¬ b64char (b % 16 * 4) = 61 := b64char_ne_pad _ h3
      have e3 : b % 16 * 4 % 4 = 0 := by omega
      simp [b64encode, b64decode, b64val_b64char _ h1, b64val_b64char _ h2,
        b64val_b64char _ h3, hc3, e3]
      omega
  | case4 a b c rest ih =>
      have ha : a < 256 := hb a (by simp)
      have hbb : b < 256 := hb b (by simp)
      have hc : c < 256 := hb c (by simp)
      have hrest : ∀ x ∈ rest, x < 256 := fun x hx => hb x (by simp [hx])
      have h1 : a / 4 < 64 := by omega
      have h2 : a % 4 * 16 + b / 16 < 64 := by omega
      have h3 : b % 16 * 4 + c / 64 < 64 := by omega
      have h4 : c % 64 < 64 := by omega
      have hc3 : ¬ b64char (b % 16 * 4 + c / 64) = 61 := b64char_ne_pad _ h3
      have hc4 : ¬ b64char (c % 64) = 61 := b64char_ne_pad _ h4
      simp [b64encode, b64decode, b64val_b64char _ h1, b64val_b64char _ h2,
        b64val_b64char _ h3, b64val_b64char _ h4, hc3, hc4, ih hrest]
      omega

/-! ## serde_json compact serialization of the attestation document

serde_json escapes `"` and `\`, uses the short escapes for the five named
control characters, and `\u00XX` (lowercase hex) for the remaining control
bytes; everything else passes through. Its compact writer emits object fields
in struct declaration order with no whitespace, and integers in decimal. -/

/-- serde_json's escape of a single byte. -/
def escByte (b : Nat) : Bytes :=
  if b = 34 then [92, 34]
  else if b = 92 then [92, 92]
  else if b = 8 then [92, 98]
  else if b = 9 then [92, 116]
  else if b = 10 then [92, 110]
  else if b = 12 then [92, 102]
  else if b = 13 then [92, 114]
  else if b < 32 then [92, 117, 48, 48, hexDigit (b / 16), hexDigit (b % 16)]
  else [b]

/-- serde_json string escaping, byte by byte. -/
def jsonEscape : Bytes → Bytes
  | [] => []
  | b :: r => escByte b ++ jsonEscape r

/-- Decimal digits of `n` (empty for 0), fueled for structural recursion. -/
def natDecF : Nat → Nat → Bytes
  | 0, _ => []
  | fuel + 1, n => if n = 0 then [] else natDecF fuel (n / 10) ++ [48 + n % 10]

/-- Decimal ASCII rendering of a natural number. -/
def natDec (n : Nat) : Bytes := if n = 0 then [48] else natDecF (n + 1) n

/-- Hex digit value of an ASCII byte. -/
def hexVal (c : Nat) : Option Nat :=
  if 48 ≤ c ∧ c ≤ 57 then some (c - 48)
  else if 97 ≤ c ∧ c ≤ 102 then some (c - 87)
  else if 65 ≤ c ∧ c ≤ 70 then some (c - 55)
  else none

/-- Single-character JSON escapes, inverted. -/
def unescBack (e : Nat) : Option Nat :=
  if e = 34 then some 34
  else if e = 92 then some 92
  else if e = 47 then some 47
  else if e = 98 then some 8
  else if e = 116 then some 9
  else if e = 110 then some 10
  else if e = 102 then some 12
  else if e = 114 then some 13
  else none

/-- Parse a JSON string body up to and including the closing quote, returning
the unescaped bytes and the remaining input. Fueled (one unit per produced
character) for structural recursion. -/
def parseStrF : Nat → Bytes → Option (Bytes × Bytes)
  | 0, _ => none
  | _, [] => none
  | fuel + 1, b :: r =>
    if b = 34 then some ([], r)
    else if b = 92 then
      match r with
      | [] => none
      | e :: r2 =>
        if e = 117 then
          match r2 with
          | h1 :: h2 :: h3 :: h4 :: r3 => do
              let d1 ← hexVal h1
              let d2 ← hexVal h2
              let d3 ← hexVal h3
              let d4 ← hexVal h4
              let (s, rest) ← parseStrF fuel r3
              some ((d1 * 4096 + d2 * 256 + d3 * 16 + d4) :: s, rest)
          | _ => none
        else do
          let c ← unescBack e
          let (s, rest) ← parseStrF fuel r2
          some (c :: s, rest)
    else do
      let (s, rest) ← parseStrF fuel r
      some (b :: s, rest)

/-- Parse a JSON string body; the input length bounds the number of steps. -/
def parseStr (bs : Bytes) : Option (Bytes × Bytes) := parseStrF bs.length bs

theorem hexVal_hexDigit : ∀ x, x < 16 → hexVal (hexDigit x) = some x := by
  decide

theorem escByte_len (b : Nat) : 1 ≤ (escByte b).length := by
  unfold escByte
  repeat' split
  all_goals simp

/-- Escaping never shrinks a string. -/
theorem jsonEscape_length (s : Bytes) : s.length ≤ (jsonEscape s).length := by
  induction s with
  | nil => simp [jsonEscape]
  | cons b t ih =>
      have := escByte_len b
      simp only [jsonEscape, List.length_append, List.length_cons]
      omega

/-- Parsing a JSON string inverts escaping, given enough fuel. -/
theorem parseStrF_escape : ∀ (s : Bytes) (fuel : Nat) (rest : Bytes), s.length < fuel →
    parseStrF fuel (jsonEscape s ++ 34 :: rest) = some (s, rest) := by
  intro s
  induction s with
  | nil =>
      intro fuel rest hf
      obtain ⟨f, rfl⟩ : ∃ f, fuel = f + 1 := ⟨fuel - 1, by omega⟩
      simp [jsonEscape, parseStrF]
  | cons b t ih =>
      intro fuel rest hf
      obtain ⟨f, rfl⟩ : ∃ f, fuel = f + 1 := ⟨fuel - 1, by omega⟩
      have hff : t.length < f := by
        simp only [List.length_cons] at hf; omega
      by_cases h34 : b = 34
      · subst h34
        simp [jsonEscape, escByte, parseStrF, unescBack, ih _ _ hff]
      · by_cases h92 : b = 92
        · subst h92
          simp [jsonEscape, escByte, parseStrF, unescBack, ih _ _ hff]
        · by_cases h8 : b = 8
          · subst h8
            simp [jsonEscape, escByte, parseStrF, unescBack, ih _ _ hff]
          · by_cases h9 : b = 9
            · subst h9
              simp [jsonEscape, escByte, parseStrF, unescBack, ih _ _ hff]
            · by_cases h10 : b = 10
              · subst h10
                simp [jsonEscape, escByte, parseStrF, unescBack, ih _ _ hff]
              · by_cases h12 : b = 12
                · subst h12
                  simp [jsonEscape, escByte, parseStrF, unescBack, ih _ _ hff]
                · by_cases h13 : b = 13
                  · subst h13
                    simp [jsonEscape, escByte, parseStrF, unescBack, ih _ _ hff]
                  · by_cases hctl : b < 32
                    · have hd1 : hexVal (hexDigit (b / 16)) = some (b / 16) :=
                        hexVal_hexDigit _ (by omega)
                      have hd2 : hexVal (hexDigit (b % 16)) = some (b % 16) :=
                        hexVal_hexDigit _ (by omega)
                      have hb : b / 16 * 16 + b % 16 = b := by omega
                      have h48 : hexVal 48 = some 0 := rfl
                      simp [jsonEscape, escByte, parseStrF, h34, h92, h8, h9, h10, h12, h13,
                        hctl, hd1, hd2, hb, h48, ih _ _ hff]
                    · simp [jsonEscape, escByte, parseStrF, h34, h92, h8, h9, h10, h12, h13, hctl,
                        ih _ _ hff]

/-- Parsing inverts escaping at the fuel `parseStr` supplies. -/
theorem parseStr_escape (s rest : Bytes) :
    parseStr (jsonEscape s ++ 34 :: rest) = some (s, rest) := by
  have h := jsonEscape_length s
  exact parseStrF_escape s _ rest (by simp; omega)

/-- Consume a run of decimal digits, most significant first. -/
def parseNatA : Bytes → Nat → Nat × Bytes
  | [], acc => (acc, [])
  | b :: r, acc =>
      if 48 ≤ b ∧ b ≤ 57 then parseNatA r (acc * 10 + (b - 48)) else (acc, b :: r)

/-- Parse a decimal number; the first byte must be a digit. -/
def parseNat : Bytes → Option (Nat × Bytes)
  | [] => none
  | b :: r => if 48 ≤ b ∧ b ≤ 57 then some (parseNatA (b :: r) 0) else none

theorem natDecF_digits : ∀ (fuel n : Nat), ∀ b ∈ natDecF fuel n, 48 ≤ b ∧ b ≤ 57 := by
  intro fuel
  induction fuel with
  | zero => intro n b hb; simp [natDecF] at hb
  | succ f ih =>
      intro n b hb
      by_cases h0 : n = 0
      · simp [natDecF, h0] at hb
      · simp only [natDecF, if_neg h0, List.mem_append, List.mem_singleton] at hb
        rcases hb with hb | hb
        · exact ih _ b hb
        · subst hb; omega

theorem parseNatA_stop (rest : Bytes) (acc : Nat)
    (hr : ∀ b, rest.head? = some b → ¬ (48 ≤ b ∧ b ≤ 57)) :
    parseNatA rest acc = (acc, rest) := by
  cases rest with
  | nil => rfl
  | cons b r => simp [parseNatA, hr b rfl]

theorem parseNatA_natDecF : ∀ (fuel n : Nat), n < fuel → ∀ (acc : Nat) (rest : Bytes),
    parseNatA (natDecF fuel n ++ rest) acc =
      parseNatA rest (acc * 10 ^ (natDecF fuel n).length + n) := by
  intro fuel
  induction fuel with
  | zero => intro n h; omega
  | succ f ih =>
      intro n hn acc rest
      by_cases h0 : n = 0
      · simp [natDecF, h0]
      · have hlt : n / 10 < n := Nat.div_lt_self (by omega) (by omega)
        have hn10 : n / 10 < f := by omega
        have hdig : 48 ≤ 48 + n % 10 ∧ 48 + n % 10 ≤ 57 := by omega
        simp only [natDecF, if_neg h0, List.append_assoc, List.cons_append, List.nil_append]
        rw [ih _ hn10]
        simp only [parseNatA, if_pos hdig, List.length_append, List.length_cons,
          List.length_nil, Nat.zero_add]
        congr 1
        rw [pow_succ, ← Nat.mul_assoc]
        omega

theorem parseNat_natDec (n : Nat) (rest : Bytes)
    (hr : ∀ b, rest.head? = some b → ¬ (48 ≤ b ∧ b ≤ 57)) :
    parseNat (natDec n ++ rest) = some (n, rest) := by
  by_cases h0 : n = 0
  · subst h0
    simp [natDec, parseNat, parseNatA, parseNatA_stop rest 0 hr]
  · have hne : natDecF (n + 1) n ≠ [] := by
      simp [natDecF, h0]
    cases hd : natDecF (n + 1) n with
    | nil => exact absurd hd hne
    | cons d ds =>
        have hddig : 48 ≤ d ∧ d ≤ 57 :=
          natDecF_digits (n + 1) n d (by simp [hd])
        have hmain := parseNatA_natDecF (n + 1) n (by omega) 0 rest
        rw [hd] at hmain
        simp only [List.cons_append] at hmain
        simp only [natDec, if_neg h0, hd, List.cons_append, parseNat, if_pos hddig, hmain]
        rw [parseNatA_stop rest _ hr]
        simp

/-- Drop an expected literal from the front of the input. -/
def stripPre : Bytes → Bytes → Option Bytes
  | [], r => some r
  | _ :: _, [] => none
  | p :: ps, b :: r => if b = p then stripPre ps r else none

theorem stripPre_append (p r : Bytes) : stripPre p (p ++ r) = some r := by
  induction p with
  | nil => rfl
  | cons x xs ih => simp [stripPre, ih]

/-! ## The attestation document (attestation.rs) -/

/-- The pre-signature payload `AttestationDocument`, fields in Rust
declaration order (which fixes the serde_json field order). -/
structure AttestationDocument where
  module_id : Bytes
  digest : Bytes
  timestamp : Nat
  operation : Bytes
  vault_id : Bytes
deriving DecidableEq

def litOpen : Bytes := asciiBytes "\x7b\"module_id\":\""
def litDigest : Bytes := asciiBytes ",\"digest\":\""
def litTimestamp : Bytes := asciiBytes ",\"timestamp\":"
def litOperation : Bytes := asciiBytes ",\"operation\":\""
def litVault : Bytes := asciiBytes ",\"vault_id\":\""
def litClose : Bytes := asciiBytes "\x7d"

/-- serde_json::to_vec of an `AttestationDocument`: compact JSON, fields in
declaration order, strings escaped, the timestamp in decimal. -/
def serializeDoc (d : AttestationDocument) : Bytes :=
  litOpen ++ jsonEscape d.module_id ++ (34 :: litDigest) ++ jsonEscape d.digest ++
  (34 :: litTimestamp) ++ natDec d.timestamp ++ litOperation ++ jsonEscape d.operation ++
  (34 :: litVault) ++ jsonEscape d.vault_id ++ (34 :: litClose)

example :
    serializeDoc ⟨asciiBytes "m", asciiBytes "d", 57, asciiBytes "o", asciiBytes "v"⟩ =
    asciiBytes
      "\x7b\"module_id\":\"m\",\"digest\":\"d\",\"timestamp\":57,\"operation\":\"o\",\"vault_id\":\"v\"\x7d" := by
  decide

/-- JSON-parse an `AttestationDocument` from the exact layout serde_json
emits for it (a verifier-side operation; not part of the Rust service). -/
def parseDoc (bs : Bytes) : Option AttestationDocument := do
  let r0 ← stripPre litOpen bs
  let (mid, r1) ← parseStr r0
  let r2 ← stripPre litDigest r1
  let (dig, r3) ← parseStr r2
  let r4 ← stripPre litTimestamp r3
  let (ts, r5) ← parseNat r4
  let r6 ← stripPre litOperation r5
  let (op, r7) ← parseStr r6
  let r8 ← stripPre litVault r7
  let (vid, r9) ← parseStr r8
  let r10 ← stripPre litClose r9
  if r10 = [] then some ⟨mid, dig, ts, op, vid⟩ else none

theorem parseNat_natDec_comma (n : Nat) (X : Bytes) :
    parseNat (natDec n ++ (litOperation ++ X)) = some (n, litOperation ++ X) := by
  apply parseNat_natDec
  intro b hb
  rw [show litOperation = 44 :: asciiBytes "\"operation\":\"" from by decide] at hb
  simp only [List.cons_append, List.head?_cons, Option.some.injEq] at hb
  omega

/-- JSON parsing inverts serde_json serialization of the document. -/
theorem parseDoc_serializeDoc (d : AttestationDocument) :
    parseDoc (serializeDoc d) = some d := by
  obtain ⟨mid, dig, ts, op, vid⟩ := d
  have hclose : stripPre litClose litClose = some [] := by decide
  simp [parseDoc, serializeDoc, List.append_assoc, stripPre_append, parseStr_escape,
    parseNat_natDec_comma, hclose]

/-! ## AttestationService (attestation.rs) -/

/-- PCR register values rendered as hex digest strings. -/
structure Measurements where
  pcr0 : Bytes
  pcr1 : Bytes
  pcr2 : Bytes
deriving DecidableEq

structure EnclaveInfo where
  image_id : Bytes
  measurements : Measurements
  timestamp : Nat
deriving DecidableEq

/-- The issued artifact: base64 document, base64 signature, info snapshot. -/
structure Attestation where
  document : Bytes
  signature : Bytes
  enclave_info : EnclaveInfo
deriving DecidableEq

namespace AttestationService

/-- `ENCLAVE_IMAGE_ID` fallback used by `AttestationService::new`. -/
def defaultImageId : Bytes := asciiBytes "nautilus-tee-image-v1"

/-- `get_pcr_measurements`: placeholder PCRs, each the hex SHA-256 of a
stable identity input. Infallible in the Rust code (always `Ok`). -/
def get_pcr_measurements (image_id : Bytes) : Measurements :=
  { pcr0 := hexEncode (sha256 image_id)
    pcr1 := hexEncode (sha256 (asciiBytes "v1.0.0"))
    pcr2 := hexEncode (sha256 (asciiBytes "nautilus-tee")) }

/-- The `digest` field computed in `generate`: "sha256:" ++ hex SHA-256 of
the raw concatenation vault_id ++ operation ++ pcr0 (format!("{}{}{}", ..)). -/
def bindingDigest (vault_id operation pcr0 : Bytes) : Bytes :=
  asciiBytes "sha256:" ++ hexEncode (sha256 (vault_id ++ operation ++ pcr0))

/-- `sign_document`: the placeholder signature is the SHA-256 of the
serialized document bytes. -/
def sign_document (document : Bytes) : Bytes := sha256 document

/-- The `AttestationDocument` value built inside `generate`. -/
def makeDoc (image_id : Bytes) (now : Nat) (vault_id operation : Bytes) :
    AttestationDocument :=
  { module_id := image_id
    digest := bindingDigest vault_id operation (get_pcr_measurements image_id).pcr0
    timestamp := now
    operation := operation
    vault_id := vault_id }

/-- `AttestationService::generate`, as a function of the service's
`image_id`, the clock reading `now`, and the request inputs. Serialization
of this fixed struct cannot fail, and measurements/signing always return
`Ok` in the source, so the `Result` collapses to a plain value. -/
def generate (image_id : Bytes) (now : Nat) (vault_id operation : Bytes) : Attestation :=
  let measurements := get_pcr_measurements image_id
  let document := makeDoc image_id now vault_id operation
  let document_bytes := serializeDoc document
  { document := b64encode document_bytes
    signature := b64encode (sign_document document_bytes)
    enclave_info :=
      { image_id := image_id, measurements := measurements, timestamp := now } }

end AttestationService

/-! ## Byte-range facts needed for the base64 round trip -/

theorem hexDigit_lt (n : Nat) (h : n < 16) : hexDigit n < 256 := by
  unfold hexDigit; split <;> omega

theorem hexEncode_bound (bs : Bytes) (hb : ∀ b ∈ bs, b < 256) :
    ∀ x ∈ hexEncode bs, x < 256 := by
  intro x hx
  simp only [hexEncode, List.mem_flatten, List.mem_map] at hx
  obtain ⟨l, ⟨b, hbmem, rfl⟩, hxl⟩ := hx
  have : b < 256 := hb b hbmem
  simp only [List.mem_cons, List.not_mem_nil, or_false] at hxl
  rcases hxl with h | h <;> subst h
  · exact hexDigit_lt _ (by omega)
  · exact hexDigit_lt _ (by omega)

theorem sha256_bound (m : Bytes) : ∀ x ∈ sha256 m, x < 256 := by
  intro x hx
  simp only [sha256, List.mem_flatten, List.mem_map] at hx
  obtain ⟨l, ⟨w, _, rfl⟩, hxl⟩ := hx
  simp only [SHA256.wordBE, List.mem_cons, List.not_mem_nil, or_false] at hxl
  rcases hxl with h | h | h | h <;> subst h <;> omega

theorem natDec_bound (n : Nat) : ∀ x ∈ natDec n, x < 256 := by
  intro x hx
  unfold natDec at hx
  split at hx
  · simp at hx; omega
  · have := natDecF_digits (n + 1) n x hx
    omega

theorem escByte_bound (b : Nat) (hb : b < 256) : ∀ x ∈ escByte b, x < 256 := by
  intro x hx
  have e1 : hexDigit (b / 16) < 256 := hexDigit_lt _ (by omega)
  have e2 : hexDigit (b % 16) < 256 := hexDigit_lt _ (by omega)
  unfold escByte at hx
  repeat' split at hx
  all_goals simp only [List.mem_cons, List.not_mem_nil, or_false] at hx
  all_goals omega

theorem jsonEscape_bound (s : Bytes) (hs : ∀ b ∈ s, b < 256) :
    ∀ x ∈ jsonEscape s, x < 256 := by
  induction s with
  | nil => intro x hx; simp [jsonEscape] at hx
  | cons b t ih =>
      intro x hx
      simp only [jsonEscape, List.mem_append] at hx
      rcases hx with hx | hx
      · exact escByte_bound b (hs b (by simp)) x hx
      · exact ih (fun y hy => hs y (by simp [hy])) x hx

theorem bindingDigest_bound (v o p : Bytes) :
    ∀ x ∈ AttestationService.bindingDigest v o p, x < 256 := by
  intro x hx
  unfold AttestationService.bindingDigest at hx
  rcases List.mem_append.mp hx with h | h
  · have hlit : ∀ y ∈ asciiBytes "sha256:", y < 256 := by decide
    exact hlit x h
  · exact hexEncode_bound _ (sha256_bound _) x h

theorem serializeDoc_bound (d : AttestationDocument)
    (h1 : ∀ b ∈ d.module_id, b < 256) (h2 : ∀ b ∈ d.digest, b < 256)
    (h3 : ∀ b ∈ d.operation, b < 256) (h4 : ∀ b ∈ d.vault_id, b < 256) :
    ∀ x ∈ serializeDoc d, x < 256 := by
  simp only [serializeDoc, List.forall_mem_append, List.forall_mem_cons]
  repeat' apply And.intro
  all_goals first
    | decide
    | omega
    | exact jsonEscape_bound _ h1
    | exact jsonEscape_bound _ h2
    | exact jsonEscape_bound _ h3
    | exact jsonEscape_bound _ h4
    | exact natDec_bound _

/-! ## ZKProofService (zk_proof.rs) -/

/-- serde_json `Value`, covering what the service constructs and inspects
(numbers as integers, matching `json!` literals and `as_u64` use). -/
inductive Json where
  | null : Json
  | bool : Bool → Json
  | num : Int → Json
  | str : Bytes → Json
  | arr : List Json → Json
  | obj : List (Bytes × Json) → Json

/-- Field lookup in a JSON object's entry list. -/
def Json.lookup : List (Bytes × Json) → Bytes → Option Json
  | [], _ => none
  | (k, v) :: rest, key => if k = key then some v else Json.lookup rest key

/-- `Value::get(key)`: field lookup on objects, `None` elsewhere. -/
def Json.get : Json → Bytes → Option Json
  | .obj kvs, key => Json.lookup kvs key
  | _, _ => none

/-- `Value::as_str`. -/
def Json.asStr : Json → Option Bytes
  | .str s => some s
  | _ => none

/-- `Value::as_u64`: non-negative integers within u64 range. -/
def Json.asU64 : Json → Option Nat
  | .num n => if 0 ≤ n ∧ n < 18446744073709551616 then some n.toNat else none
  | _ => none

/-- `ZKProofResult { proof, public_signals }`. -/
structure ZKProofResult where
  proof : Json
  public_signals : List Bytes

namespace ZKProofService

/-- The placeholder proof object of `generate_keyword_proof`. -/
def keywordProofJson : Json :=
  .obj [(asciiBytes "pi_a", .arr [.str (asciiBytes "0x1234"), .str (asciiBytes "0x5678")]),
        (asciiBytes "pi_b", .arr [.arr [.str (asciiBytes "0xabcd"), .str (asciiBytes "0xef01")],
                                  .arr [.str (asciiBytes "0x2345"), .str (asciiBytes "0x6789")]]),
        (asciiBytes "pi_c", .arr [.str (asciiBytes "0x9876"), .str (asciiBytes "0x5432")])]

/-- The placeholder proof object of `generate_timestamp_proof`. -/
def timestampProofJson : Json :=
  .obj [(asciiBytes "pi_a", .arr [.str (asciiBytes "0x1111"), .str (asciiBytes "0x2222")]),
        (asciiBytes "pi_b", .arr [.arr [.str (asciiBytes "0x3333"), .str (asciiBytes "0x4444")],
                                  .arr [.str (asciiBytes "0x5555"), .str (asciiBytes "0x6666")]]),
        (asciiBytes "pi_c", .arr [.str (asciiBytes "0x7777"), .str (asciiBytes "0x8888")])]

/-- The placeholder proof object of `generate_hash_proof`. -/
def hashProofJson : Json :=
  .obj [(asciiBytes "pi_a", .arr [.str (asciiBytes "0xaaaa"), .str (asciiBytes "0xbbbb")]),
        (asciiBytes "pi_b", .arr [.arr [.str (asciiBytes "0xcccc"), .str (asciiBytes "0xdddd")],
                                  .arr [.str (asciiBytes "0xeeee"), .str (asciiBytes "0xffff")]]),
        (asciiBytes "pi_c", .arr [.str (asciiBytes "0x0000"), .str (asciiBytes "0x1111")])]

/-- `generate_keyword_proof`: requires a string `keyword` field; the single
public signal is "keyword_hash_" ++ hex SHA-256 of the keyword. The
`_encrypted_data` argument is unused in the source. -/
def generate_keyword_proof (claim_value : Json) (_encrypted_data : Bytes) :
    Except Bytes ZKProofResult :=
  match (claim_value.get (asciiBytes "keyword")).bind Json.asStr with
  | none => .error (asciiBytes "Missing keyword in claim_value")
  | some keyword =>
      .ok { proof := keywordProofJson
            public_signals := [asciiBytes "keyword_hash_" ++ hexEncode (sha256 keyword)] }

/-- `generate_timestamp_proof`: optional `min`/`max` read via `as_u64`;
signals are their decimal renderings, defaulting to "0" and "9999999999".
The `_encrypted_data` argument is unused in the source. -/
def generate_timestamp_proof (claim_value : Json) (_encrypted_data : Bytes) :
    Except Bytes ZKProofResult :=
  let min := (claim_value.get (asciiBytes "min")).bind Json.asU64
  let max := (claim_value.get (asciiBytes "max")).bind Json.asU64
  .ok { proof := timestampProofJson
        public_signals :=
          [match min with | some m => natDec m | none => asciiBytes "0",
           match max with | some m => natDec m | none => asciiBytes "9999999999"] }

/-- `generate_hash_proof`: requires a string `hash` field; hashes the
`encrypted_data` bytes exactly as received. -/
def generate_hash_proof (claim_value : Json) (encrypted_data : Bytes) :
    Except Bytes ZKProofResult :=
  match (claim_value.get (asciiBytes "hash")).bind Json.asStr with
  | none => .error (asciiBytes "Missing hash in claim_value")
  | some expected_hash =>
      let actual_hash := hexEncode (sha256 encrypted_data)
      .ok { proof := hashProofJson
            public_signals := [expected_hash, actual_hash] }

/-- `ZKProofService::generate`: dispatch on the claim type tag. -/
def generate (claim_type : Bytes) (claim_value : Json) (encrypted_data : Bytes) :
    Except Bytes ZKProofResult :=
  if claim_type = asciiBytes "keyword" then
    generate_keyword_proof claim_value encrypted_data
  else if claim_type = asciiBytes "timestamp" then
    generate_timestamp_proof claim_value encrypted_data
  else if claim_type = asciiBytes "file_hash" then
    generate_hash_proof claim_value encrypted_data
  else
    .error (asciiBytes "Unsupported claim type: " ++ claim_type)

end ZKProofService

/-! ## The claims -/

/-- C1: for every (vault_id, operation) pair (and any image id and clock
reading), generating an attestation, base64-decoding its `document` field and
JSON-parsing it yields an `AttestationDocument` whose `digest` field equals
the binding digest recomputed from the decoded `vault_id` and `operation`
fields and the attestation's `pcr0`: "sha256:" followed by the hex SHA-256 of
their raw concatenation. -/
theorem C1_attest_roundtrip (image_id : Bytes) (now : Nat) (vault_id operation : Bytes)
    (him : ∀ b ∈ image_id, b < 256) (hv : ∀ b ∈ vault_id, b < 256)
    (ho : ∀ b ∈ operation, b < 256) :
    ∃ db d,
      b64decode (AttestationService.generate image_id now vault_id operation).document =
        some db ∧
      parseDoc db = some d ∧
      d.digest = asciiBytes "sha256:" ++ hexEncode (sha256 (d.vault_id ++ d.operation ++
        (AttestationService.generate image_id now vault_id
          operation).enclave_info.measurements.pcr0)) := by
  refine ⟨serializeDoc (AttestationService.makeDoc image_id now vault_id operation),
    AttestationService.makeDoc image_id now vault_id operation, ?_, ?_, ?_⟩
  · exact b64decode_b64encode _
      (serializeDoc_bound _ him (bindingDigest_bound _ _ _) ho hv)
  · exact parseDoc_serializeDoc _
  · rfl

/-- Witness for C1 at a concrete request. -/
theorem C1_attest_roundtrip_witness :
    ∃ db d,
      b64decode (AttestationService.generate AttestationService.defaultImageId 1700000000
        (asciiBytes "vault1") (asciiBytes "biometric_verification")).document = some db ∧
      parseDoc db = some d ∧
      d.digest = asciiBytes "sha256:" ++ hexEncode (sha256 (d.vault_id ++ d.operation ++
        (AttestationService.generate AttestationService.defaultImageId 1700000000
          (asciiBytes "vault1")
          (asciiBytes "biometric_verification")).enclave_info.measurements.pcr0)) :=
  C1_attest_roundtrip AttestationService.defaultImageId 1700000000
    (asciiBytes "vault1") (asciiBytes "biometric_verification")
    (by decide) (by decide) (by decide)

/-- C2 counterexample: the digest input is the raw, separator-free
concatenation, so the two distinct (vault_id, operation) pairs ("ab","c") and
("a","bc") (same register0) feed byte-identical strings to the hash and get
the same binding digest — the claimed injective encoding does not hold. -/
theorem C2_concat_ambiguous :
    ((asciiBytes "ab", asciiBytes "c") ≠ (asciiBytes "a", asciiBytes "bc")) ∧
    asciiBytes "ab" ++ asciiBytes "c" ++
        (AttestationService.get_pcr_measurements AttestationService.defaultImageId).pcr0 =
      asciiBytes "a" ++ asciiBytes "bc" ++
        (AttestationService.get_pcr_measurements AttestationService.defaultImageId).pcr0 ∧
    AttestationService.bindingDigest (asciiBytes "ab") (asciiBytes "c")
        (AttestationService.get_pcr_measurements AttestationService.defaultImageId).pcr0 =
      AttestationService.bindingDigest (asciiBytes "a") (asciiBytes "bc")
        (AttestationService.get_pcr_measurements AttestationService.defaultImageId).pcr0 := by
  refine ⟨by decide, by decide, by decide⟩

/-- C2 (amended): the hash input is the plain concatenation (ambiguous across
distinct triples), but the two concrete operation strings
"biometric_verification" and "liveness_check" do produce different binding
digests for the same vault_id and register0. -/
theorem C2_amended_digest_separation :
    AttestationService.bindingDigest (asciiBytes "vault1")
        (asciiBytes "biometric_verification")
        (AttestationService.get_pcr_measurements AttestationService.defaultImageId).pcr0 ≠
      AttestationService.bindingDigest (asciiBytes "vault1")
        (asciiBytes "liveness_check")
        (AttestationService.get_pcr_measurements AttestationService.defaultImageId).pcr0 := by
  decide

/-- C3: with claim_value.hash = Hash(plaintext) and confidential_data an
encrypted form of that plaintext, `generate_hash_proof` hashes the received
bytes (the ciphertext), so actual_hash differs from expected_hash — the code
hashes the ciphertext where the spec requires the plaintext. -/
theorem C3_hash_proof_ciphertext_divergence :
    ZKProofService.generate (asciiBytes "file_hash")
        (.obj [(asciiBytes "hash", .str (hexEncode (sha256 (asciiBytes "hello"))))])
        (asciiBytes "ENCRYPTED(hello)") =
      .ok { proof := ZKProofService.hashProofJson
            public_signals := [hexEncode (sha256 (asciiBytes "hello")),
                               hexEncode (sha256 (asciiBytes "ENCRYPTED(hello)"))] } ∧
    hexEncode (sha256 (asciiBytes "ENCRYPTED(hello)")) ≠
      hexEncode (sha256 (asciiBytes "hello")) := by
  exact ⟨rfl, by decide⟩

/-- C4: two `generate` calls at different times agree on every
document field except the timestamp (module_id, digest, operation, vault_id)
and on the full measurement set and image id of `enclave_info` — only the
timestamp varies between calls. -/
theorem C4_attest_deterministic (image_id : Bytes) (t1 t2 : Nat)
    (vault_id operation : Bytes) :
    (AttestationService.makeDoc image_id t1 vault_id operation).module_id =
      (AttestationService.makeDoc image_id t2 vault_id operation).module_id ∧
    (AttestationService.makeDoc image_id t1 vault_id operation).digest =
      (AttestationService.makeDoc image_id t2 vault_id operation).digest ∧
    (AttestationService.makeDoc image_id t1 vault_id operation).operation =
      (AttestationService.makeDoc image_id t2 vault_id operation).operation ∧
    (AttestationService.makeDoc image_id t1 vault_id operation).vault_id =
      (AttestationService.makeDoc image_id t2 vault_id operation).vault_id ∧
    (AttestationService.generate image_id t1 vault_id operation).enclave_info.image_id =
      (AttestationService.generate image_id t2 vault_id operation).enclave_info.image_id ∧
    (AttestationService.generate image_id t1 vault_id operation).enclave_info.measurements =
      (AttestationService.generate image_id t2 vault_id operation).enclave_info.measurements :=
  ⟨rfl, rfl, rfl, rfl, rfl, rfl⟩

/-- C5: every claim type other than "keyword", "timestamp" and "file_hash"
makes `ZKProofService::generate` fail with the unsupported-claim-type error
naming the offending tag, whatever the claim value and data. -/
theorem C5_unsupported_claim_type (claim_type : Bytes) (claim_value : Json)
    (encrypted_data : Bytes)
    (h1 : claim_type ≠ asciiBytes "keyword")
    (h2 : claim_type ≠ asciiBytes "timestamp")
    (h3 : claim_type ≠ asciiBytes "file_hash") :
    ZKProofService.generate claim_type claim_value encrypted_data =
      .error (asciiBytes "Unsupported claim type: " ++ claim_type) := by
  simp [ZKProofService.generate, h1, h2, h3]

/-- Witness for C5 at the concrete unsupported tag "foo". -/
theorem C5_unsupported_claim_type_witness :
    ZKProofService.generate (asciiBytes "foo") .null [] =
      .error (asciiBytes "Unsupported claim type: " ++ asciiBytes "foo") :=
  C5_unsupported_claim_type (asciiBytes "foo") .null []
    (by decide) (by decide) (by decide)

/-- C6: the "timestamp" claim always succeeds; its signals are the decimal
renderings of `min` (default "0") and `max` (default the sentinel
"9999999999", the code's maximum representable timestamp); concretely,
min=100 and max=200 give ["100","200"]. -/
theorem C6_timestamp_signals (claim_value : Json) (encrypted_data : Bytes) :
    ZKProofService.generate (asciiBytes "timestamp") claim_value encrypted_data =
      .ok { proof := ZKProofService.timestampProofJson
            public_signals :=
              [((claim_value.get (asciiBytes "min")).bind Json.asU64).elim
                 (asciiBytes "0") natDec,
               ((claim_value.get (asciiBytes "max")).bind Json.asU64).elim
                 (asciiBytes "9999999999") natDec] } ∧
    ZKProofService.generate (asciiBytes "timestamp")
        (.obj [(asciiBytes "min", .num 100), (asciiBytes "max", .num 200)])
        encrypted_data =
      .ok { proof := ZKProofService.timestampProofJson
            public_signals := [asciiBytes "100", asciiBytes "200"] } := by
  constructor
  · show ZKProofService.generate_timestamp_proof claim_value encrypted_data = _
    unfold ZKProofService.generate_timestamp_proof
    cases hmin : (claim_value.get (asciiBytes "min")).bind Json.asU64 <;>
      cases hmax : (claim_value.get (asciiBytes "max")).bind Json.asU64 <;>
      simp [Option.elim]
  · rfl

/-- C7: a "keyword" claim whose claim_value has no string-valued `keyword`
field fails with the missing-keyword validation error, for every data input. -/
theorem C7_keyword_missing_error (claim_value : Json) (encrypted_data : Bytes)
    (h : (claim_value.get (asciiBytes "keyword")).bind Json.asStr = none) :
    ZKProofService.generate (asciiBytes "keyword") claim_value encrypted_data =
      .error (asciiBytes "Missing keyword in claim_value") := by
  show ZKProofService.generate_keyword_proof claim_value encrypted_data = _
  unfold ZKProofService.generate_keyword_proof
  rw [h]

/-- Witness for C7 at the empty object. -/
theorem C7_keyword_missing_error_witness :
    ZKProofService.generate (asciiBytes "keyword") (.obj []) [] =
      .error (asciiBytes "Missing keyword in claim_value") :=
  C7_keyword_missing_error (.obj []) [] (by decide)

/-- C8 counterexample: for the keyword "keyword", the single public signal
"keyword_hash_…" contains the keyword itself verbatim (as a prefix), so the
claim that the keyword never appears in public_signals is false. -/
theorem C8_keyword_appears_in_signal :
    ∃ res, ZKProofService.generate (asciiBytes "keyword")
        (.obj [(asciiBytes "keyword", .str (asciiBytes "keyword"))]) [] = .ok res ∧
      ∃ sig t, res.public_signals = [sig] ∧ sig = asciiBytes "keyword" ++ t := by
  refine ⟨_, rfl, asciiBytes "keyword_hash_" ++ hexEncode (sha256 (asciiBytes "keyword")),
    asciiBytes "_hash_" ++ hexEncode (sha256 (asciiBytes "keyword")), rfl, ?_⟩
  rw [show asciiBytes "keyword_hash_" = asciiBytes "keyword" ++ asciiBytes "_hash_" from
    by decide]
  rw [List.append_assoc]

/-- C8 (amended): for a "keyword" claim whose claim_value carries a non-empty
string keyword k, `generate` succeeds with public_signals equal to the single
tagged hash "keyword_hash_" ++ hex SHA-256 of k (the keyword enters the
signal only through this tagged hash, which can embed short keywords as
substrings — e.g. the tag itself starts with "keyword"). -/
theorem C8_amended_keyword_signals (claim_value : Json) (encrypted_data : Bytes)
    (k : Bytes)
    (hk : (claim_value.get (asciiBytes "keyword")).bind Json.asStr = some k)
    (hne : k ≠ []) :
    ZKProofService.generate (asciiBytes "keyword") claim_value encrypted_data =
      .ok { proof := ZKProofService.keywordProofJson
            public_signals := [asciiBytes "keyword_hash_" ++ hexEncode (sha256 k)] } := by
  show ZKProofService.generate_keyword_proof claim_value encrypted_data = _
  unfold ZKProofService.generate_keyword_proof
  rw [hk]

/-- Witness for C8 (amended) at the concrete keyword "secret". -/
theorem C8_amended_keyword_signals_witness :
    ZKProofService.generate (asciiBytes "keyword")
        (.obj [(asciiBytes "keyword", .str (asciiBytes "secret"))]) [] =
      .ok { proof := ZKProofService.keywordProofJson
            public_signals :=
              [asciiBytes "keyword_hash_" ++ hexEncode (sha256 (asciiBytes "secret"))] } :=
  C8_amended_keyword_signals
    (.obj [(asciiBytes "keyword", .str (asciiBytes "secret"))]) []
    (asciiBytes "secret") (by decide) (by decide)

/-- C9: in every attestation, base64-decoding the signature yields exactly the
SHA-256 of the base64-decoded document bytes — a keyless hash recomputable
from the document field alone. -/
theorem C9_signature_is_document_hash (image_id : Bytes) (now : Nat)
    (vault_id operation : Bytes)
    (him : ∀ b ∈ image_id, b < 256) (hv : ∀ b ∈ vault_id, b < 256)
    (ho : ∀ b ∈ operation, b < 256) :
    ∃ db,
      b64decode (AttestationService.generate image_id now vault_id operation).document =
        some db ∧
      b64decode (AttestationService.generate image_id now vault_id operation).signature =
        some (sha256 db) := by
  refine ⟨serializeDoc (AttestationService.makeDoc image_id now vault_id operation), ?_, ?_⟩
  · exact b64decode_b64encode _
      (serializeDoc_bound _ him (bindingDigest_bound _ _ _) ho hv)
  · exact b64decode_b64encode _ (sha256_bound _)

/-- Witness for C9 at a concrete request. -/
theorem C9_signature_is_document_hash_witness :
    ∃ db,
      b64decode (AttestationService.generate AttestationService.defaultImageId 1700000000
        (asciiBytes "vault1") (asciiBytes "liveness_check")).document = some db ∧
      b64decode (AttestationService.generate AttestationService.defaultImageId 1700000000
        (asciiBytes "vault1") (asciiBytes "liveness_check")).signature =
        some (sha256 db) :=
  C9_signature_is_document_hash AttestationService.defaultImageId 1700000000
    (asciiBytes "vault1") (asciiBytes "liveness_check")
    (by decide) (by decide) (by decide)

/-- C10: for the "keyword" and "timestamp" claim types, the result of
`ZKProofService::generate` does not depend on the confidential data at all:
any two data inputs give identical results. -/
theorem C10_independent_of_confidential_data (claim_value : Json) (d1 d2 : Bytes) :
    ZKProofService.generate (asciiBytes "keyword") claim_value d1 =
      ZKProofService.generate (asciiBytes "keyword") claim_value d2 ∧
    ZKProofService.generate (asciiBytes "timestamp") claim_value d1 =
      ZKProofService.generate (asciiBytes "timestamp") claim_value d2 :=
  ⟨rfl, rfl⟩

end Lumina
